import Mathlib

/-!
Shallow embedding of the BN-220 NMEA parser (src/BN220.c) and proofs about it.

Sentences and fields are modelled as `List Char` (C strings up to their NUL
terminator).  The C `float`/`double` arithmetic is embedded with exact
rationals (`ℚ`); `strtol`/`strtof` are modelled on the decimal/hex forms that
NMEA fields can contain (whitespace skip, optional sign, digits, fraction for
`strtof`; exponent/hex-float/inf/nan forms are not produced by these inputs
and are omitted).  Out-of-bounds array stores in `gpsParse` are modelled by a
guarded store that returns `none` on the error branch.
-/

attribute [local semireducible] Rat.add Rat.mul Rat.inv Rat.sub Rat.ofScientific

/-- C `isspace` on the default locale: space, \t, \n, \v, \f, \r. -/
def isSpaceC (c : Char) : Bool :=
  c == ' ' || c == '\t' || c == '\n' || c == Char.ofNat 11 || c == Char.ofNat 12 || c == '\r'

/-- Value of a list of decimal digit characters, most significant first. -/
def decVal (l : List Char) : Nat :=
  l.foldl (fun a c => a * 10 + (c.toNat - 48)) 0

/-- Hex digit value of a character, `none` if it is not a hex digit. -/
def hexDigVal (c : Char) : Option Nat :=
  if '0' ≤ c ∧ c ≤ '9' then some (c.toNat - 48)
  else if 'a' ≤ c ∧ c ≤ 'f' then some (c.toNat - 87)
  else if 'A' ≤ c ∧ c ≤ 'F' then some (c.toNat - 55)
  else none

/-- Value of the longest hex-digit run heading the list. -/
def hexCore (l : List Char) : Nat :=
  (l.takeWhile (fun c => (hexDigVal c).isSome)).foldl (fun a c => a * 16 + (hexDigVal c).getD 0) 0

/-- Hex number with the optional `0x`/`0X` marker accepted by `strtol(..,16)`. -/
def hexWith0x (l : List Char) : Nat :=
  match l with
  | '0' :: 'x' :: c :: r => if (hexDigVal c).isSome then hexCore (c :: r) else hexCore l
  | '0' :: 'X' :: c :: r => if (hexDigVal c).isSome then hexCore (c :: r) else hexCore l
  | _ => hexCore l

/-- Model of C `strtol(s, NULL, 16)` on the given characters. -/
def strtol16 (l : List Char) : Int :=
  match l.dropWhile isSpaceC with
  | '-' :: r => -(hexWith0x r : Int)
  | '+' :: r => (hexWith0x r : Int)
  | r => (hexWith0x r : Int)

/-- Model of C `strtol(s, NULL, 10)` on the given characters. -/
def strtol10 (l : List Char) : Int :=
  match l.dropWhile isSpaceC with
  | '-' :: r => -(decVal (r.takeWhile Char.isDigit) : Int)
  | '+' :: r => (decVal (r.takeWhile Char.isDigit) : Int)
  | r => (decVal (r.takeWhile Char.isDigit) : Int)

/-- Fraction-part digits admitted by `strtof` after the dot. -/
def fracDigits (l : List Char) : List Char :=
  match l.dropWhile Char.isDigit with
  | '.' :: r => r.takeWhile Char.isDigit
  | _ => []

/-- Unsigned decimal value `DDD.DDD` read by `strtof`. -/
def strtofCore (l : List Char) : ℚ :=
  (decVal (l.takeWhile Char.isDigit) : ℚ) + (decVal (fracDigits l) : ℚ) / (10 : ℚ) ^ (fracDigits l).length

/-- Model of C `strtof(s, NULL)` on plain decimal input, as an exact rational. -/
def strtofQ (l : List Char) : ℚ :=
  match l.dropWhile isSpaceC with
  | '-' :: r => -(strtofCore r)
  | '+' :: r => strtofCore r
  | r => strtofCore r

/-- Split on a delimiter keeping empty segments: the `strsep` loop of the decoders. -/
def splitOnC (d : Char) : List Char → List (List Char)
  | [] => [[]]
  | c :: rest =>
    if c = d then [] :: splitOnC d rest
    else
      match splitOnC d rest with
      | [] => [[c]]
      | t :: ts => (c :: t) :: ts

/-- Running XOR of the bytes of a string, as in `getChecksum`'s loop
(`calc_cs ^= (unsigned char)(*p)`). -/
def xorBytes (l : List Char) : Nat :=
  l.foldl (fun a c => Nat.xor a (c.toNat % 256)) 0

/-- Does `pat` occur at the head of `s`? (helper for the `strstr` model). -/
def begMatch : List Char → List Char → Bool
  | [], _ => true
  | _ :: _, [] => false
  | a :: as, b :: bs => a == b && begMatch as bs

/-- Model of `strstr(s, pat) != NULL`: `pat` occurs somewhere in `s`. -/
def findSub (pat : List Char) : List Char → Bool
  | [] => begMatch pat []
  | c :: rest => begMatch pat (c :: rest) || findSub pat rest

/-- First character of a C string: `s[0]`, i.e. NUL for the empty string. -/
def head0 (l : List Char) : Char :=
  l.headD (Char.ofNat 0)

/-- The `BN220_GPS` output structure of BN220.h. -/
@[ext] structure BN220_GPS where
  lat : ℚ
  NS : Char
  lon : ℚ
  EW : Char
  altitude : ℚ
  hdop : ℚ
  satelliteCount : Int
  fix : Int
  lastMeasure : List Char
deriving DecidableEq

/-- `getChecksum`: reject short input, find `*`, require two characters after
it, compare the XOR of everything before `*` with the hex value after it. -/
def getChecksum (s : List Char) : Bool :=
  if s.length < 5 then false
  else
    match s.dropWhile (fun c => !(c == '*')) with
    | _ :: c1 :: c2 :: _ =>
      ((xorBytes (s.takeWhile (fun c => !(c == '*'))) : Int) == strtol16 [c1, c2])
    | _ => false

/-- The comma-split field array `val[25]` built by each decoder with `strsep`. -/
def nmeaFields (s : List Char) : List (List Char) :=
  (splitOnC ',' s).take 25

/-- `val[i]` read as a C string (`[]` both for an empty field and for a NULL slot). -/
def fld (s : List Char) (i : Nat) : List Char :=
  (nmeaFields s).getD i []

/-- GLL latitude: `lat_d_t + lat_m_t / 60.0` with `lat_d` the first two
characters and `lat_m` the next six (BN220.c lines 106-112). -/
def gllLatDeg (raw : List Char) : ℚ :=
  (strtol10 (raw.take 2) : ℚ) + strtofQ ((raw.drop 2).take 6) / 60

/-- GLL longitude: three degree characters, seven minute characters. -/
def gllLonDeg (raw : List Char) : ℚ :=
  (strtol10 (raw.take 3) : ℚ) + strtofQ ((raw.drop 3).take 7) / 60

/-- GGA latitude: the minutes are divided by 60 first (`strtof(lat_m)/60.0f`)
and the quotient is then added to the whole degrees (BN220.c lines 227-229). -/
def ggaLatDeg (raw : List Char) : ℚ :=
  let f : ℚ := strtofQ ((raw.drop 2).take 6) / 60
  (strtol10 (raw.take 2) : ℚ) + f

/-- GGA longitude, minutes scaled inline before the sum. -/
def ggaLonDeg (raw : List Char) : ℚ :=
  let f : ℚ := strtofQ ((raw.drop 3).take 7) / 60
  (strtol10 (raw.take 3) : ℚ) + f

/-- GGA time policy: copy nine characters of `val[1]` if it is long enough,
else clear the field (BN220.c lines 216-219). -/
def ggaTime (s : List Char) : List Char :=
  if 9 ≤ (fld s 1).length then (fld s 1).take 9 else []

/-- GLL time policy: copy nine characters of `val[5]` if present and long
enough, else clear the field (BN220.c lines 137-143). -/
def gllTime (s : List Char) : List Char :=
  if 9 ≤ (fld s 5).length then (fld s 5).take 9 else []

/-- The populate step of `nmea_GLL` (BN220.c lines 132-143): coordinates are
stored non-negated, the two indicator characters verbatim. -/
def gllWrite (s : List Char) (r : BN220_GPS) : BN220_GPS :=
  { r with
    lat := gllLatDeg (fld s 1)
    lon := gllLonDeg (fld s 3)
    NS := head0 (fld s 2)
    EW := head0 (fld s 4)
    lastMeasure := gllTime s }

/-- `nmea_GLL`.  Returns the C return value and the record as left in memory. -/
def nmea_GLL (r : BN220_GPS) (s : List Char) : Bool × BN220_GPS :=
  if (nmeaFields s).length < 5 then (false, r)
  else if head0 (fld s 2) = 'N' ∨ head0 (fld s 2) = 'S' then
    if strtol10 ((fld s 1).take 2) = 0 ∨ strtofQ (((fld s 1).drop 2).take 6) = 0 ∨
       strtol10 ((fld s 3).take 3) = 0 ∨ strtofQ (((fld s 3).drop 3).take 7) = 0 then
      (false, r)
    else
      (true, gllWrite s r)
  else (false, r)

/-- The populate step of `nmea_GSA` (BN220.c lines 185-194). -/
def gsaWrite (s : List Char) (r : BN220_GPS) : BN220_GPS :=
  { r with
    fix := if 1 < strtol10 (fld s 2) then 1 else 0
    satelliteCount := (((List.range 12).filter (fun i => fld s (3 + i) ≠ [])).length : Int) }

/-- `nmea_GSA`: fix flag from `val[2] > 1`, satellite count = number of
non-empty PRN slots `val[3..14]`. -/
def nmea_GSA (r : BN220_GPS) (s : List Char) : Bool × BN220_GPS :=
  if (nmeaFields s).length < 15 then (false, r) else (true, gsaWrite s r)

/-- The time write `nmea_GGA` performs before validating the coordinates
(BN220.c lines 216-219). -/
def ggaTimeWrite (s : List Char) (r : BN220_GPS) : BN220_GPS :=
  { r with lastMeasure := ggaTime s }

/-- The full success write of `nmea_GGA` (BN220.c lines 216-249): signed
coordinates, fix flag, satellite count, and the `?:`-guarded hdop/altitude. -/
def ggaWrite (s : List Char) (r : BN220_GPS) : BN220_GPS :=
  { r with
    lat := if head0 (fld s 3) = 'S' then -(ggaLatDeg (fld s 2)) else ggaLatDeg (fld s 2)
    lon := if head0 (fld s 5) = 'W' then -(ggaLonDeg (fld s 4)) else ggaLonDeg (fld s 4)
    fix := if 0 < strtol10 (fld s 6) then 1 else 0
    satelliteCount := strtol10 (fld s 7)
    hdop := if strtofQ (fld s 8) = 0 then r.hdop else strtofQ (fld s 8)
    altitude := if strtofQ (fld s 9) = 0 then r.altitude else strtofQ (fld s 9)
    lastMeasure := ggaTime s }

/-- `nmea_GGA`.  The time field is written before the coordinate checks, so
every failure branch after the field-count test leaves `lastMeasure` updated. -/
def nmea_GGA (r : BN220_GPS) (s : List Char) : Bool × BN220_GPS :=
  if (nmeaFields s).length < 10 then (false, r)
  else if head0 (fld s 3) = 'N' ∨ head0 (fld s 3) = 'S' then
    if ggaLatDeg (fld s 2) ≤ 0 ∨ 90 ≤ ggaLatDeg (fld s 2) then
      (false, ggaTimeWrite s r)
    else if head0 (fld s 5) = 'E' ∨ head0 (fld s 5) = 'W' then
      if ggaLonDeg (fld s 4) ≤ 0 ∨ 180 ≤ ggaLonDeg (fld s 4) then
        (false, ggaTimeWrite s r)
      else
        (true, ggaWrite s r)
    else (false, ggaTimeWrite s r)
  else (false, ggaTimeWrite s r)

/-- `nmea_GSV`: structural validation only, never writes the record. -/
def nmea_GSV (r : BN220_GPS) (s : List Char) : Bool × BN220_GPS :=
  if (nmeaFields s).length < 2 then (false, r) else (true, r)

/-- One iteration of `gpsParse`'s dispatch loop: require the `\r\n` marker and
a valid checksum, then route on the first matching type substring. -/
def dispatchOne (r : BN220_GPS) (s : List Char) : BN220_GPS :=
  if findSub ['\r', '\n'] s && getChecksum s then
    if findSub ['G', 'L', 'L'] s then (nmea_GLL r s).2
    else if findSub ['G', 'S', 'A'] s then (nmea_GSA r s).2
    else if findSub ['G', 'G', 'A'] s then (nmea_GGA r s).2
    else if findSub ['G', 'S', 'V'] s then (nmea_GSV r s).2
    else r
  else r

/-- The dispatch loop over the stored candidate sentences, in original order. -/
def processAll (r : BN220_GPS) (l : List (List Char)) : BN220_GPS :=
  l.foldl dispatchOne r

/-- `strtok(buffer, "$")` candidate extraction: the non-empty `$`-separated
segments of the buffer, in order. -/
def strtokDollar (buf : List Char) : List (List Char) :=
  (splitOnC '$' buf).filter (fun t => t ≠ [])

/-- The store loop `data[cnt++] = ...` over the fixed `char* data[15]`, with
the out-of-bounds store modelled as the `none` error branch. -/
def storeAll : List (List Char) → Nat → Option (List (List Char))
  | [], _ => some []
  | s :: rest, cnt =>
    if cnt < 15 then (storeAll rest (cnt + 1)).map (fun l => s :: l) else none

/-- `gpsParse`: split the buffer, store the candidates in the 15-slot array,
then run the dispatch loop.  `none` is the out-of-bounds store branch. -/
def gpsParse (r : BN220_GPS) (buf : List Char) : Option BN220_GPS :=
  (storeAll (strtokDollar buf) 0).map (processAll r)

mutual

/-- Contents of the caller's buffer after `gpsParse`'s `strtok(.., "$")` loop,
while `strtok` is skipping a delimiter run: those `$` bytes are left in place. -/
def scanDelim : List Char → List Char
  | [] => []
  | c :: r => if c = '$' then '$' :: scanDelim r else c :: scanTok r

/-- Buffer contents while `strtok` is inside a token: the `$` that terminates
the token is overwritten with NUL, after which delimiter skipping resumes. -/
def scanTok : List Char → List Char
  | [] => []
  | c :: r => if c = '$' then Char.ofNat 0 :: scanDelim r else c :: scanTok r

end

/-- One record field of `f` is either written with a value independent of the
incoming record, or passed through unchanged. -/
def Cip {α : Type} (π : BN220_GPS → α) (f : BN220_GPS → BN220_GPS) : Prop :=
  (∀ a b, π (f a) = π (f b)) ∨ ∀ a, π (f a) = π a

/-- Every field of `f` is constant-or-identity: the shape shared by all the
decoder passes for a fixed sentence, which forces idempotence. -/
def CI (f : BN220_GPS → BN220_GPS) : Prop :=
  Cip BN220_GPS.lat f ∧ Cip BN220_GPS.NS f ∧ Cip BN220_GPS.lon f ∧ Cip BN220_GPS.EW f ∧
  Cip BN220_GPS.altitude f ∧ Cip BN220_GPS.hdop f ∧ Cip BN220_GPS.satelliteCount f ∧
  Cip BN220_GPS.fix f ∧ Cip BN220_GPS.lastMeasure f

/-- A concrete prior record used by the witnesses: every field holds a
recognizable previous value. -/
def recA : BN220_GPS :=
  { lat := 0, NS := 'x', lon := 0, EW := 'x', altitude := 50, hdop := 2,
    satelliteCount := 0, fix := 0, lastMeasure := "000000.00".toList }

/-- GLL sentence whose E/W indicator field is `Q`, all numeric fields
well-formed and non-zero. -/
def sGLLq : List Char := "GPGLL,11.1,N,111.1,Q,123456.789".toList

/-- GLL sentence with exactly five fields: the UTC time field is absent. -/
def sGLLnoT : List Char := "GPGLL,11.1,N,111.1,E".toList

/-- GGA sentence with ten fields whose computed latitude is 99 + 1/60 ≥ 90. -/
def sGGAhi : List Char := "GPGGA,123519.00,9901.000,N,01131.000,E,1,08,0.9,545.4".toList

/-- Valid GGA sentence with non-zero hdop field and empty altitude field. -/
def sGGA8 : List Char := "GPGGA,123519.00,4807.038,N,01131.000,E,1,08,0.9,".toList

/-- Valid GSA sentence: fix type 3, five non-empty PRN slots, checksum 39. -/
def gsaS : List Char := "GPGSA,A,3,04,05,,09,12,,,24,,,,,2.5,1.3,2.1*39\r\n".toList

/-- GGA sentence carrying a wrong checksum (the XOR of its body is 67). -/
def badGGA : List Char := "GPGGA,000000.00,1111.0,N,11111.0,E,1,08,1.0,10.0*00\r\n".toList

/-- Valid GLL sentence with a nine-character UTC time field, checksum 65. -/
def gllS : List Char := "GPGLL,11.1,N,111.1,E,123519.00*65\r\n".toList

/-- A whole buffer holding one valid GLL sentence, checksum 6A. -/
def bufA : List Char := "$GPGLL,11.1,N,111.1,E*6A\r\n".toList

/-- The record `gpsParse` produces from `recA` and `bufA`. -/
def recA1 : BN220_GPS :=
  { recA with lat := 6601/600, lon := 66601/600, NS := 'N', EW := 'E', lastMeasure := [] }

theorem takeWhile_star (pre rest : List Char) (h : '*' ∉ pre) :
    (pre ++ '*' :: rest).takeWhile (fun c => !(c == '*')) = pre := by
  induction pre with
  | nil => simp
  | cons a t ih =>
    have ha : a ≠ '*' := fun hh => h (by simp [hh])
    have ht : '*' ∉ t := fun hm => h (List.mem_cons_of_mem a hm)
    simp [List.takeWhile_cons, ha, ih ht]

theorem dropWhile_star (pre rest : List Char) (h : '*' ∉ pre) :
    (pre ++ '*' :: rest).dropWhile (fun c => !(c == '*')) = '*' :: rest := by
  induction pre with
  | nil => simp
  | cons a t ih =>
    have ha : a ≠ '*' := fun hh => h (by simp [hh])
    have ht : '*' ∉ t := fun hm => h (List.mem_cons_of_mem a hm)
    simp [List.dropWhile_cons, ha, ih ht]

theorem dropWhile_decomp (s : List Char) (a : Char) (t : List Char)
    (hd : s.dropWhile (fun c => !(c == '*')) = a :: t) :
    s = s.takeWhile (fun c => !(c == '*')) ++ a :: t ∧ a = '*' ∧
      '*' ∉ s.takeWhile (fun c => !(c == '*')) := by
  induction s with
  | nil => simp at hd
  | cons c r ih =>
    by_cases hc : c = '*'
    · subst hc
      rw [List.dropWhile_cons_of_neg (by simp)] at hd
      have ha : a = '*' := by injection hd with h1 _; exact h1.symm
      have ht : t = r := by injection hd with _ h2; exact h2.symm
      subst ha; subst ht
      rw [List.takeWhile_cons_of_neg (by simp)]
      exact ⟨rfl, rfl, by simp⟩
    · rw [List.dropWhile_cons_of_pos (by simp [hc])] at hd
      obtain ⟨h1, h2, h3⟩ := ih hd
      rw [List.takeWhile_cons_of_pos (by simp [hc])]
      refine ⟨?_, h2, ?_⟩
      · rw [List.cons_append]; exact congrArg (c :: ·) h1
      · intro hm
        rcases List.mem_cons.mp hm with h | h
        · exact hc h.symm
        · exact h3 h

/-- C7: `getChecksum` succeeds exactly when the sentence is at least 5 bytes
long, a `*` is present with at least two characters after it, and the XOR of
every byte before the first `*` equals the base-16 value of the two characters
following it; any shorter input, missing `*`, or short checksum tail fails. -/
theorem getChecksum_iff (s : List Char) :
    getChecksum s = true ↔
      5 ≤ s.length ∧ ∃ pre c1 c2 rest, s = pre ++ '*' :: c1 :: c2 :: rest ∧ '*' ∉ pre ∧
        (xorBytes pre : Int) = strtol16 [c1, c2] := by
  constructor
  · intro h
    unfold getChecksum at h
    by_cases hlen : s.length < 5
    · simp [hlen] at h
    rw [if_neg hlen] at h
    rcases hd : s.dropWhile (fun c => !(c == '*')) with _ | ⟨a, _ | ⟨c1, _ | ⟨c2, tail⟩⟩⟩ <;>
      rw [hd] at h
    · exact absurd h (by simp)
    · exact absurd h (by simp)
    · exact absurd h (by simp)
    · obtain ⟨h1, h2, h3⟩ := dropWhile_decomp s a (c1 :: c2 :: tail) hd
      subst h2
      refine ⟨by omega, s.takeWhile (fun c => !(c == '*')), c1, c2, tail, h1, h3, ?_⟩
      exact Int.natCast_inj.mpr rfl |>.symm ▸ (by exact_mod_cast (beq_iff_eq.mp h))
  · rintro ⟨hlen, pre, c1, c2, rest, rfl, hpre, hxor⟩
    unfold getChecksum
    rw [if_neg (by omega), dropWhile_star pre _ hpre, takeWhile_star pre _ hpre]
    exact beq_iff_eq.mpr hxor

/-- C5: for the same raw coordinate field, the degree value computed by the
GLL decoder (minutes divided by 60 after the sum of the parse results) and by
the GGA decoder (minutes divided by 60 inline before the sum) are numerically
identical, for latitude and longitude alike. -/
theorem coordDeg_uniform (raw : List Char) :
    gllLatDeg raw = ggaLatDeg raw ∧ gllLonDeg raw = ggaLonDeg raw :=
  ⟨rfl, rfl⟩

/-- C6: a candidate sentence that lacks the `\r\n` marker or fails the
checksum is a no-op of the dispatch loop: deleting it from anywhere in the
candidate list leaves the final record unchanged, so it neither mutates the
record nor prevents any later sentence from being processed in order. -/
theorem dispatch_skips (r : BN220_GPS) (l1 : List (List Char)) (bad : List Char)
    (l2 : List (List Char))
    (h : (findSub ['\r', '\n'] bad && getChecksum bad) = false) :
    processAll r (l1 ++ bad :: l2) = processAll r (l1 ++ l2) := by
  unfold processAll
  rw [List.foldl_append, List.foldl_append]
  have : dispatchOne (List.foldl dispatchOne r l1) bad = List.foldl dispatchOne r l1 := by
    unfold dispatchOne
    simp [h]
  simp [List.foldl_cons, this]

/-- Witness for C6: the spec's three-sentence buffer.  The malformed GGA
sentence (bad checksum) is skipped, and the record ends with the satellite
count from the GSA sentence and the coordinates from the GLL sentence. -/
theorem dispatch_skips_witness :
    (findSub ['\r', '\n'] badGGA && getChecksum badGGA) = false ∧
      processAll recA ([gsaS] ++ badGGA :: [gllS]) = processAll recA ([gsaS] ++ [gllS]) ∧
      (processAll recA ([gsaS] ++ badGGA :: [gllS])).satelliteCount = 5 ∧
      (processAll recA ([gsaS] ++ badGGA :: [gllS])).lat = 6601/600 ∧
      (processAll recA ([gsaS] ++ badGGA :: [gllS])).lon = 66601/600 ∧
      (processAll recA ([gsaS] ++ badGGA :: [gllS])).fix = 1 :=
  ⟨by decide, dispatch_skips recA [gsaS] badGGA [gllS] (by decide),
    by decide, by decide, by decide, by decide⟩

theorem ci_id : CI (fun r => r) := by
  refine ⟨?_, ?_, ?_, ?_, ?_, ?_, ?_, ?_, ?_⟩ <;> exact Or.inr fun a => rfl

theorem ci_congr (f g : BN220_GPS → BN220_GPS) (h : ∀ r, f r = g r) (hf : CI f) : CI g := by
  have hfg : f = g := funext h
  exact hfg ▸ hf

theorem cip_comp {α : Type} (π : BN220_GPS → α) (f g : BN220_GPS → BN220_GPS)
    (hg : Cip π g) (hf : Cip π f) : Cip π (fun r => g (f r)) := by
  rcases hg with hg | hg
  · exact Or.inl fun a b => hg (f a) (f b)
  · rcases hf with hf | hf
    · exact Or.inl fun a b => (hg (f a)).trans ((hf a b).trans (hg (f b)).symm)
    · exact Or.inr fun a => (hg (f a)).trans (hf a)

theorem ci_comp (f g : BN220_GPS → BN220_GPS) (hg : CI g) (hf : CI f) :
    CI (fun r => g (f r)) := by
  obtain ⟨g1, g2, g3, g4, g5, g6, g7, g8, g9⟩ := hg
  obtain ⟨f1, f2, f3, f4, f5, f6, f7, f8, f9⟩ := hf
  exact ⟨cip_comp _ f g g1 f1, cip_comp _ f g g2 f2, cip_comp _ f g g3 f3,
    cip_comp _ f g g4 f4, cip_comp _ f g g5 f5, cip_comp _ f g g6 f6,
    cip_comp _ f g g7 f7, cip_comp _ f g g8 f8, cip_comp _ f g g9 f9⟩

theorem ci_fixpoint (f : BN220_GPS → BN220_GPS) (h : CI f) (r : BN220_GPS) :
    f (f r) = f r := by
  obtain ⟨h1, h2, h3, h4, h5, h6, h7, h8, h9⟩ := h
  apply BN220_GPS.ext
  · rcases h1 with h | h; exacts [h (f r) r, h (f r)]
  · rcases h2 with h | h; exacts [h (f r) r, h (f r)]
  · rcases h3 with h | h; exacts [h (f r) r, h (f r)]
  · rcases h4 with h | h; exacts [h (f r) r, h (f r)]
  · rcases h5 with h | h; exacts [h (f r) r, h (f r)]
  · rcases h6 with h | h; exacts [h (f r) r, h (f r)]
  · rcases h7 with h | h; exacts [h (f r) r, h (f r)]
  · rcases h8 with h | h; exacts [h (f r) r, h (f r)]
  · rcases h9 with h | h; exacts [h (f r) r, h (f r)]

theorem gll_cases (s : List Char) :
    (∀ r, (nmea_GLL r s).2 = r) ∨ (∀ r, (nmea_GLL r s).2 = gllWrite s r) := by
  by_cases h1 : (nmeaFields s).length < 5
  · exact Or.inl fun r => by simp [nmea_GLL, h1]
  by_cases h2 : head0 (fld s 2) = 'N' ∨ head0 (fld s 2) = 'S'
  · by_cases h3 : strtol10 ((fld s 1).take 2) = 0 ∨ strtofQ (((fld s 1).drop 2).take 6) = 0 ∨
        strtol10 ((fld s 3).take 3) = 0 ∨ strtofQ (((fld s 3).drop 3).take 7) = 0
    · exact Or.inl fun r => by simp [nmea_GLL, h1, h2, h3]
    · exact Or.inr fun r => by simp [nmea_GLL, h1, h2, h3]
  · exact Or.inl fun r => by simp [nmea_GLL, h1, h2]

theorem gsa_cases (s : List Char) :
    (∀ r, (nmea_GSA r s).2 = r) ∨ (∀ r, (nmea_GSA r s).2 = gsaWrite s r) := by
  by_cases h1 : (nmeaFields s).length < 15
  · exact Or.inl fun r => by simp [nmea_GSA, h1]
  · exact Or.inr fun r => by simp [nmea_GSA, h1]

theorem gga_cases (s : List Char) :
    (∀ r, (nmea_GGA r s).2 = r) ∨ (∀ r, (nmea_GGA r s).2 = ggaTimeWrite s r) ∨
      (∀ r, (nmea_GGA r s).2 = ggaWrite s r) := by
  by_cases h1 : (nmeaFields s).length < 10
  · exact Or.inl fun r => by simp [nmea_GGA, h1]
  by_cases h2 : head0 (fld s 3) = 'N' ∨ head0 (fld s 3) = 'S'
  · by_cases h3 : ggaLatDeg (fld s 2) ≤ 0 ∨ 90 ≤ ggaLatDeg (fld s 2)
    · exact Or.inr (Or.inl fun r => by simp [nmea_GGA, h1, h2, h3])
    by_cases h4 : head0 (fld s 5) = 'E' ∨ head0 (fld s 5) = 'W'
    · by_cases h5 : ggaLonDeg (fld s 4) ≤ 0 ∨ 180 ≤ ggaLonDeg (fld s 4)
      · exact Or.inr (Or.inl fun r => by simp [nmea_GGA, h1, h2, h3, h4, h5])
      · exact Or.inr (Or.inr fun r => by simp [nmea_GGA, h1, h2, h3, h4, h5])
    · exact Or.inr (Or.inl fun r => by simp [nmea_GGA, h1, h2, h4])
  · exact Or.inr (Or.inl fun r => by simp [nmea_GGA, h1, h2])

theorem gsv_id (r : BN220_GPS) (s : List Char) : (nmea_GSV r s).2 = r := by
  unfold nmea_GSV
  split <;> rfl

theorem ci_gllWrite (s : List Char) : CI (gllWrite s) := by
  refine ⟨?_, ?_, ?_, ?_, ?_, ?_, ?_, ?_, ?_⟩ <;>
    first
      | exact Or.inl fun a b => rfl
      | exact Or.inr fun a => rfl

theorem ci_gsaWrite (s : List Char) : CI (gsaWrite s) := by
  refine ⟨?_, ?_, ?_, ?_, ?_, ?_, ?_, ?_, ?_⟩ <;>
    first
      | exact Or.inl fun a b => rfl
      | exact Or.inr fun a => rfl

theorem ci_ggaTimeWrite (s : List Char) : CI (ggaTimeWrite s) := by
  refine ⟨?_, ?_, ?_, ?_, ?_, ?_, ?_, ?_, ?_⟩ <;>
    first
      | exact Or.inl fun a b => rfl
      | exact Or.inr fun a => rfl

theorem ci_ggaWrite (s : List Char) : CI (ggaWrite s) := by
  refine ⟨Or.inl fun a b => rfl, Or.inr fun a => rfl, Or.inl fun a b => rfl,
    Or.inr fun a => rfl, ?_, ?_, Or.inl fun a b => rfl, Or.inl fun a b => rfl,
    Or.inl fun a b => rfl⟩
  · by_cases h : strtofQ (fld s 9) = 0
    · exact Or.inr fun a => by simp [ggaWrite, h]
    · exact Or.inl fun a b => by simp [ggaWrite, h]
  · by_cases h : strtofQ (fld s 8) = 0
    · exact Or.inr fun a => by simp [ggaWrite, h]
    · exact Or.inl fun a b => by simp [ggaWrite, h]

theorem ci_nmea_GLL (s : List Char) : CI (fun r => (nmea_GLL r s).2) := by
  rcases gll_cases s with h | h
  · exact ci_congr _ _ (fun r => (h r).symm) ci_id
  · exact ci_congr _ _ (fun r => (h r).symm) (ci_gllWrite s)

theorem ci_nmea_GSA (s : List Char) : CI (fun r => (nmea_GSA r s).2) := by
  rcases gsa_cases s with h | h
  · exact ci_congr _ _ (fun r => (h r).symm) ci_id
  · exact ci_congr _ _ (fun r => (h r).symm) (ci_gsaWrite s)

theorem ci_nmea_GGA (s : List Char) : CI (fun r => (nmea_GGA r s).2) := by
  rcases gga_cases s with h | h | h
  · exact ci_congr _ _ (fun r => (h r).symm) ci_id
  · exact ci_congr _ _ (fun r => (h r).symm) (ci_ggaTimeWrite s)
  · exact ci_congr _ _ (fun r => (h r).symm) (ci_ggaWrite s)

theorem ci_nmea_GSV (s : List Char) : CI (fun r => (nmea_GSV r s).2) :=
  ci_congr _ _ (fun r => (gsv_id r s).symm) ci_id

theorem ci_dispatchOne (s : List Char) : CI (fun r => dispatchOne r s) := by
  by_cases hc : (findSub ['\r', '\n'] s && getChecksum s) = true
  · by_cases g1 : findSub ['G', 'L', 'L'] s = true
    · exact ci_congr _ _ (fun r => by simp [dispatchOne, hc, g1]) (ci_nmea_GLL s)
    by_cases g2 : findSub ['G', 'S', 'A'] s = true
    · exact ci_congr _ _ (fun r => by simp [dispatchOne, hc, g1, g2]) (ci_nmea_GSA s)
    by_cases g3 : findSub ['G', 'G', 'A'] s = true
    · exact ci_congr _ _ (fun r => by simp [dispatchOne, hc, g1, g2, g3]) (ci_nmea_GGA s)
    by_cases g4 : findSub ['G', 'S', 'V'] s = true
    · exact ci_congr _ _ (fun r => by simp [dispatchOne, hc, g1, g2, g3, g4]) (ci_nmea_GSV s)
    · exact ci_congr _ _ (fun r => by simp [dispatchOne, hc, g1, g2, g3, g4]) ci_id
  · exact ci_congr _ _ (fun r => by simp [dispatchOne, hc]) ci_id

theorem ci_processAll (l : List (List Char)) : CI (fun r => processAll r l) := by
  induction l with
  | nil => exact ci_id
  | cons s t ih => exact ci_comp _ _ ih (ci_dispatchOne s)

/-- C3: running the dispatch pass twice on the same buffer contents leaves the
record exactly as one run does: every field a decoder writes is, for a fixed
sentence, either a value computed from that sentence alone or the field's
previous value, so the second pass rewrites what the first already wrote. -/
theorem gpsParse_idem (r : BN220_GPS) (buf : List Char) (r1 : BN220_GPS)
    (h : gpsParse r buf = some r1) : gpsParse r1 buf = some r1 := by
  unfold gpsParse at h ⊢
  cases hst : storeAll (strtokDollar buf) 0 with
  | none => rw [hst] at h; simp at h
  | some l =>
    rw [hst] at h
    simp only [Option.map_some'] at h ⊢
    have hr : processAll r l = r1 := by injection h
    rw [← hr]
    exact congrArg some (ci_fixpoint (fun x => processAll x l) (ci_processAll l) r)

/-- Witness for C3: a one-sentence GLL buffer, re-parsed from the state the
first parse produced. -/
theorem gpsParse_idem_witness :
    gpsParse recA bufA = some recA1 ∧ gpsParse recA1 bufA = some recA1 :=
  ⟨by decide, gpsParse_idem recA bufA recA1 (by decide)⟩

/-- Counterexample to C1: a GGA sentence with ten fields and computed latitude
99 + 1/60 ≥ 90 is rejected, yet the record's `lastMeasure` has been rewritten
from the time field — rejection does mutate the record. -/
theorem gga_reject_mutation_cex :
    10 ≤ (nmeaFields sGGAhi).length ∧ 90 ≤ ggaLatDeg (fld sGGAhi 2) ∧
      (nmea_GGA recA sGGAhi).1 = false ∧
      (nmea_GGA recA sGGAhi).2.lastMeasure ≠ recA.lastMeasure := by
  refine ⟨by decide, by decide, by decide, by decide⟩

/-- C1 amended: on a sentence with at least ten fields whose computed latitude
is outside (0, 90) or longitude outside (0, 180), `nmea_GGA` returns failure
and leaves every field unchanged except `lastMeasure`, which has already been
rewritten from the time field (set or cleared) before the coordinate checks. -/
theorem gga_reject_leaves_time (r : BN220_GPS) (s : List Char)
    (hn : 10 ≤ (nmeaFields s).length)
    (hout : ggaLatDeg (fld s 2) ≤ 0 ∨ 90 ≤ ggaLatDeg (fld s 2) ∨
      ggaLonDeg (fld s 4) ≤ 0 ∨ 180 ≤ ggaLonDeg (fld s 4)) :
    nmea_GGA r s = (false, ggaTimeWrite s r) := by
  unfold nmea_GGA
  rw [if_neg (by omega)]
  by_cases h2 : head0 (fld s 3) = 'N' ∨ head0 (fld s 3) = 'S'
  · rw [if_pos h2]
    by_cases h3 : ggaLatDeg (fld s 2) ≤ 0 ∨ 90 ≤ ggaLatDeg (fld s 2)
    · rw [if_pos h3]
    · rw [if_neg h3]
      by_cases h4 : head0 (fld s 5) = 'E' ∨ head0 (fld s 5) = 'W'
      · rw [if_pos h4]
        have h5 : ggaLonDeg (fld s 4) ≤ 0 ∨ 180 ≤ ggaLonDeg (fld s 4) := by
          rcases hout with h | h | h | h
          · exact absurd (Or.inl h) h3
          · exact absurd (Or.inr h) h3
          · exact Or.inl h
          · exact Or.inr h
        rw [if_pos h5]
      · rw [if_neg h4]
  · rw [if_neg h2]

/-- Witness for the amended C1, at the out-of-range-latitude sentence. -/
theorem gga_reject_leaves_time_witness :
    nmea_GGA recA sGGAhi = (false, ggaTimeWrite sGGAhi recA) :=
  gga_reject_leaves_time recA sGGAhi (by decide) (Or.inr (Or.inl (by decide)))

/-- Counterexample to C2: a GLL sentence whose E/W field starts with `Q` (not
`E`/`W`) is accepted — `nmea_GLL` returns success and mutates the record. -/
theorem gll_badew_accepted_cex :
    5 ≤ (nmeaFields sGLLq).length ∧ head0 (fld sGLLq 4) ≠ 'E' ∧
      head0 (fld sGLLq 4) ≠ 'W' ∧ (nmea_GLL recA sGLLq).1 = true ∧
      (nmea_GLL recA sGLLq).2 ≠ recA := by
  refine ⟨by decide, by decide, by decide, by decide, by decide⟩

/-- C2 amended: `nmea_GLL` never validates the E/W indicator.  Whenever the
field count, the N/S indicator, and the four zero-checks pass, the sentence is
accepted and the first character of field [4] is stored verbatim in `EW`. -/
theorem gll_accepts_any_ew (r : BN220_GPS) (s : List Char)
    (hn : 5 ≤ (nmeaFields s).length)
    (hns : head0 (fld s 2) = 'N' ∨ head0 (fld s 2) = 'S')
    (h1 : strtol10 ((fld s 1).take 2) ≠ 0) (h2 : strtofQ (((fld s 1).drop 2).take 6) ≠ 0)
    (h3 : strtol10 ((fld s 3).take 3) ≠ 0) (h4 : strtofQ (((fld s 3).drop 3).take 7) ≠ 0) :
    nmea_GLL r s = (true, gllWrite s r) := by
  unfold nmea_GLL
  rw [if_neg (by omega), if_pos hns, if_neg (by simp [h1, h2, h3, h4])]

/-- Witness for the amended C2, at the sentence with E/W indicator `Q`. -/
theorem gll_accepts_any_ew_witness :
    nmea_GLL recA sGLLq = (true, gllWrite sGLLq recA) :=
  gll_accepts_any_ew recA sGLLq (by decide) (Or.inl (by decide)) (by decide) (by decide)
    (by decide) (by decide)

/-- Counterexample to C4: a successful GLL decode with an absent time field
does not retain the previous `lastMeasure` — it clears it. -/
theorem gll_clears_time_cex :
    (nmea_GLL recA sGLLnoT).1 = true ∧ (fld sGLLnoT 5).length < 9 ∧
      recA.lastMeasure ≠ [] ∧
      (nmea_GLL recA sGLLnoT).2.lastMeasure ≠ recA.lastMeasure := by
  refine ⟨by decide, by decide, by decide, by decide⟩

/-- C4 amended: when `nmea_GLL` succeeds and the UTC time field [5] is absent
or shorter than nine characters, `lastMeasure` is cleared to the empty string
— the same clearing policy as GGA, not a retain-previous-value policy. -/
theorem gll_clears_short_time (r : BN220_GPS) (s : List Char)
    (hs : (nmea_GLL r s).1 = true) (hlen : (fld s 5).length < 9) :
    (nmea_GLL r s).2.lastMeasure = [] := by
  unfold nmea_GLL at hs ⊢
  by_cases h1 : (nmeaFields s).length < 5
  · rw [if_pos h1] at hs; exact absurd hs (by simp)
  rw [if_neg h1] at hs ⊢
  by_cases h2 : head0 (fld s 2) = 'N' ∨ head0 (fld s 2) = 'S'
  · rw [if_pos h2] at hs ⊢
    by_cases h3 : strtol10 ((fld s 1).take 2) = 0 ∨ strtofQ (((fld s 1).drop 2).take 6) = 0 ∨
        strtol10 ((fld s 3).take 3) = 0 ∨ strtofQ (((fld s 3).drop 3).take 7) = 0
    · rw [if_pos h3] at hs; exact absurd hs (by simp)
    · rw [if_neg h3]
      simp [gllWrite, gllTime, if_neg (by omega : ¬ 9 ≤ (fld s 5).length)]
  · rw [if_neg h2] at hs; exact absurd hs (by simp)

/-- Witness for the amended C4, at the five-field GLL sentence. -/
theorem gll_clears_short_time_witness :
    (nmea_GLL recA sGLLnoT).2.lastMeasure = [] :=
  gll_clears_short_time recA sGLLnoT (by decide) (by decide)

/-- C8: on every successful GGA decode, hdop and altitude are taken from the
parsed fields [8] and [9], except that a value parsing to exactly zero
(including an empty field) leaves the record's previous value in place. -/
theorem gga_hdop_altitude (r : BN220_GPS) (s : List Char)
    (hs : (nmea_GGA r s).1 = true) :
    (nmea_GGA r s).2.hdop =
        (if strtofQ (fld s 8) = 0 then r.hdop else strtofQ (fld s 8)) ∧
      (nmea_GGA r s).2.altitude =
        (if strtofQ (fld s 9) = 0 then r.altitude else strtofQ (fld s 9)) := by
  unfold nmea_GGA at hs ⊢
  by_cases h1 : (nmeaFields s).length < 10
  · rw [if_pos h1] at hs; exact absurd hs (by simp)
  rw [if_neg h1] at hs ⊢
  by_cases h2 : head0 (fld s 3) = 'N' ∨ head0 (fld s 3) = 'S'
  · rw [if_pos h2] at hs ⊢
    by_cases h3 : ggaLatDeg (fld s 2) ≤ 0 ∨ 90 ≤ ggaLatDeg (fld s 2)
    · rw [if_pos h3] at hs; exact absurd hs (by simp)
    rw [if_neg h3] at hs ⊢
    by_cases h4 : head0 (fld s 5) = 'E' ∨ head0 (fld s 5) = 'W'
    · rw [if_pos h4] at hs ⊢
      by_cases h5 : ggaLonDeg (fld s 4) ≤ 0 ∨ 180 ≤ ggaLonDeg (fld s 4)
      · rw [if_pos h5] at hs; exact absurd hs (by simp)
      · rw [if_neg h5]; exact ⟨rfl, rfl⟩
    · rw [if_neg h4] at hs; exact absurd hs (by simp)
  · rw [if_neg h2] at hs; exact absurd hs (by simp)

/-- Witness for C8: hdop field `0.9` is written, the empty altitude field
parses to zero and the previous altitude is retained. -/
theorem gga_hdop_altitude_witness :
    (nmea_GGA recA sGGA8).2.hdop =
        (if strtofQ (fld sGGA8 8) = 0 then recA.hdop else strtofQ (fld sGGA8 8)) ∧
      (nmea_GGA recA sGGA8).2.altitude =
        (if strtofQ (fld sGGA8 9) = 0 then recA.altitude else strtofQ (fld sGGA8 9)) :=
  gga_hdop_altitude recA sGGA8 (by decide)

theorem storeAll_ok (l : List (List Char)) :
    ∀ n : Nat, l.length + n ≤ 15 → storeAll l n = some l := by
  induction l with
  | nil => intro n _; rfl
  | cons s rest ih =>
    intro n h
    unfold storeAll
    rw [if_pos (by simp at h; omega), ih (n + 1) (by simp at h ⊢; omega)]
    rfl

theorem storeAll_overflow (l : List (List Char)) :
    ∀ n : Nat, 15 < l.length + n → n ≤ 15 → storeAll l n = none := by
  induction l with
  | nil => intro n h1 h2; simp at h1; omega
  | cons s rest ih =>
    intro n h1 h2
    unfold storeAll
    by_cases hn : n < 15
    · rw [if_pos hn, ih (n + 1) (by simp at h1 ⊢; omega) (by omega)]
      rfl
    · rw [if_neg hn]

/-- C9: the sentence store of `gpsParse` writes each candidate into the fixed
15-slot array `data` with no bound check, so the pass stays in bounds exactly
when the buffer splits into at most 15 candidates; every buffer with more than
15 candidates reaches the guarded indexing error branch (`none`). -/
theorem gpsParse_store_bound (r : BN220_GPS) (buf : List Char) :
    gpsParse r buf = none ↔ 15 < (strtokDollar buf).length := by
  unfold gpsParse
  constructor
  · intro h
    by_contra hc
    push_neg at hc
    rw [storeAll_ok _ 0 (by omega)] at h
    simp at h
  · intro h
    rw [storeAll_overflow _ 0 (by omega) (by omega)]
    rfl

theorem scan_eq_iff (l : List Char) :
    (scanTok l = l ↔ '$' ∉ l) ∧
      (scanDelim l = l ↔ '$' ∉ l.dropWhile (fun c => c == '$')) := by
  induction l with
  | nil => exact ⟨by simp [scanTok], by simp [scanDelim]⟩
  | cons c r ih =>
    obtain ⟨ih1, ih2⟩ := ih
    by_cases hc : c = '$'
    · subst hc
      constructor
      · rw [scanTok, if_pos rfl]
        constructor
        · intro h
          have : Char.ofNat 0 = '$' := by injection h
          exact absurd this (by decide)
        · intro h; exact absurd (List.mem_cons_self '$' r) h
      · rw [scanDelim, if_pos rfl, List.dropWhile_cons_of_pos (by simp)]
        constructor
        · intro h
          have hr : scanDelim r = r := by injection h
          exact ih2.mp hr
        · intro h
          rw [ih2.mpr h]
    · constructor
      · rw [scanTok, if_neg hc]
        constructor
        · intro h
          have hr : scanTok r = r := by injection h
          intro hm
          rcases List.mem_cons.mp hm with h1 | h1
          · exact hc h1.symm
          · exact (ih1.mp hr) h1
        · intro h
          rw [ih1.mpr fun hm => h (List.mem_cons_of_mem c hm)]
      · rw [scanDelim, if_neg hc, List.dropWhile_cons_of_neg (by simp [hc])]
        constructor
        · intro h
          have hr : scanTok r = r := by injection h
          intro hm
          rcases List.mem_cons.mp hm with h1 | h1
          · exact hc h1.symm
          · exact (ih1.mp hr) h1
        · intro h
          rw [ih1.mpr fun hm => h (List.mem_cons_of_mem c hm)]

/-- Counterexample to C10: the single-sentence buffer `$GPGLL,...` contains a
`$`, yet `strtok` only skips the leading delimiter run without writing to it,
so `gpsParse` leaves this buffer's contents byte-for-byte unchanged. -/
theorem strtok_unchanged_cex : '$' ∈ bufA ∧ scanDelim bufA = bufA := by
  refine ⟨by decide, by decide⟩

/-- C10 amended: `gpsParse`'s `strtok` loop rewrites the caller's buffer
exactly when some `$` occurs after a non-`$` byte (a token is `$`-terminated);
`$` bytes in the leading delimiter run alone are left untouched, so such
buffers — including the common single-sentence `$...` buffer — are unchanged. -/
theorem strtok_modifies_iff (l : List Char) :
    scanDelim l ≠ l ↔ '$' ∈ l.dropWhile (fun c => c == '$') := by
  have h := (scan_eq_iff l).2
  constructor
  · intro hne
    by_contra hmem
    exact hne (h.mpr hmem)
  · intro hmem heq
    exact (h.mp heq) hmem
